import Mathlib

/-!
Verification development for the `vehicle_dynamics_Blender` repository.

The development shallowly embeds the two source files that ship with the
repository (`src/__init__.py`, the sensor-fusion pipeline entry point, and
`src/input_manager.py`, the input adapter) into Lean 4, together with
models of the helper modules (`clean_data_utils.py`, `gnss_utils.py`,
`integrate.py`) that the pipeline imports but whose sources are not part of
the repository snapshot; those helpers are modelled from the specification
and each carries a doc comment saying so.

Numeric values are embedded as exact rationals (`ℚ`): the Python code
computes with IEEE floats, but no claim below depends on rounding, so the
rational embedding is used throughout.  Square roots (needed by
`numpy.linalg.norm`) are modelled by a fixed-iteration rational Newton
approximation; again no claim depends on its value.
-/

/-- Three-component sample of a time-indexed vector series (one column of a
numpy 3×N array). -/
structure Vec3 where
  x : ℚ
  y : ℚ
  z : ℚ
deriving DecidableEq, Repr

def vzero : Vec3 := ⟨0, 0, 0⟩

def vadd (a b : Vec3) : Vec3 := ⟨a.x + b.x, a.y + b.y, a.z + b.z⟩

def vsub (a b : Vec3) : Vec3 := ⟨a.x - b.x, a.y - b.y, a.z - b.z⟩

def vneg (a : Vec3) : Vec3 := ⟨-a.x, -a.y, -a.z⟩

def vsmul (c : ℚ) (a : Vec3) : Vec3 := ⟨c * a.x, c * a.y, c * a.z⟩

def dot (a b : Vec3) : ℚ := a.x * b.x + a.y * b.y + a.z * b.z

def cross (a b : Vec3) : Vec3 :=
  ⟨a.y * b.z - a.z * b.y, a.z * b.x - a.x * b.z, a.x * b.y - a.y * b.x⟩

/-- Mean of a list of rationals; the empty mean is 0 in the model (numpy
produces NaN there, a case no claim exercises). -/
def ratMean (l : List ℚ) : ℚ := l.sum / (l.length : ℚ)

def vec3Sum (l : List Vec3) : Vec3 := l.foldr vadd vzero

def vec3Mean (l : List Vec3) : Vec3 := vsmul (1 / (l.length : ℚ)) (vec3Sum l)

/-- One Newton step for the square root of `x`. -/
def sqrtStep (x q : ℚ) : ℚ := if q = 0 then 0 else (q + x / q) / 2

/-- Rational stand-in for the floating-point square root used by
`numpy.linalg.norm`: eight Newton iterations.  No claim depends on its
value, only on it being a fixed total function. -/
def ratSqrt (x : ℚ) : ℚ :=
  if x ≤ 0 then 0 else (sqrtStep x)^[8] (x + 1)

/-- Euclidean norm of a sample, via the modelled square root
(`np.linalg.norm(real_velocities, axis=0)` in `__init__.py` line 66). -/
def norm3 (v : Vec3) : ℚ := ratSqrt (v.x ^ 2 + v.y ^ 2 + v.z ^ 2)

/-! ## Embedding of `input_manager.py` -/

/-- Input type tags, from the `InputType` enum of `input_manager.py`. -/
inductive InputType where
  | ACCELERATION
  | FULLINERTIAL
  | GNSS
  | GYROSCOPE
  | INERTIAL
  | UNMOD_FULLINERTIAL
  | UNMOD_INERTIAL
  | UNRECOGNIZED
deriving DecidableEq, BEq, Repr

/-- List of every input type, the default for `accepted_types` in
`parse_input` (`[input_type for input_type in InputType]`). -/
def allInputTypes : List InputType :=
  [.ACCELERATION, .FULLINERTIAL, .GNSS, .GYROSCOPE, .INERTIAL,
   .UNMOD_FULLINERTIAL, .UNMOD_INERTIAL, .UNRECOGNIZED]

/-- One row of the parsed tab-separated dataframe.  Cells of the named
columns are optional: `none` models a NaN/missing cell (pandas `isnull`).
Columns absent from a narrower file layout are modelled as null cells. -/
structure Row where
  timestamp : Option ℚ
  lon : Option ℚ
  lat : Option ℚ
  alt : Option ℚ
  speed : Option ℚ
  ax : Option ℚ
  ay : Option ℚ
  az : Option ℚ
  gx : Option ℚ
  gy : Option ℚ
  gz : Option ℚ
deriving DecidableEq, Repr

/-- The parsed dataframe: the column count of the raw file
(`df.shape[1]`) plus the row data (`df.shape[0] = rows.length`). -/
structure DataFrame where
  numCols : Nat
  rows : List Row
deriving DecidableEq, Repr

def rowHasNull (r : Row) : Bool :=
  r.timestamp.isNone || r.lon.isNone || r.lat.isNone || r.alt.isNone ||
  r.speed.isNone || r.ax.isNone || r.ay.isNone || r.az.isNone ||
  r.gx.isNone || r.gy.isNone || r.gz.isNone

/-- Model of `df.isnull().values.any()`. -/
def dfHasNull (df : DataFrame) : Bool := df.rows.any rowHasNull

/-- Does `needle` start the string `hay`?  Helper for substring search. -/
def strStarts : List Char → List Char → Bool
  | _, [] => true
  | [], _ :: _ => false
  | a :: as, b :: bs => a == b && strStarts as bs

/-- Model of Python `hay.find(needle) != -1`: substring containment. -/
def strFind : List Char → List Char → Bool
  | [], needle => strStarts [] needle
  | h :: t, needle => strStarts (h :: t) needle || strFind t needle

/-- Embedding of `detect_input_type` (`input_manager.py` lines 45-85):
first the filename-substring heuristic, in source order, then the
column-count fallback, defaulting to `UNRECOGNIZED`. -/
def detect_input_type (df : DataFrame) (filepath : List Char) : InputType :=
  if strFind filepath "acc".toList then .ACCELERATION
  else if strFind filepath "gnss".toList then .GNSS
  else if strFind filepath "gyr".toList then .GYROSCOPE
  else if strFind filepath "unmodified-fullinertial".toList then .UNMOD_FULLINERTIAL
  else if strFind filepath "unmodified-inertial".toList then .UNMOD_INERTIAL
  else if strFind filepath "fullinertial".toList then .FULLINERTIAL
  else if strFind filepath "inertial".toList then .INERTIAL
  else if df.numCols = 4 then .ACCELERATION
  else if df.numCols = 10 then
    (if dfHasNull df then .UNMOD_INERTIAL else .INERTIAL)
  else if df.numCols = 14 then
    (if dfHasNull df then .UNMOD_FULLINERTIAL else .FULLINERTIAL)
  else .UNRECOGNIZED

/-- Clamp one Python slice index for a list of length `n`. -/
def pySliceIdx (n : Nat) (v : Int) : Nat :=
  if v < 0 then (v + n).toNat else min v.toNat n

/-- Model of Python list slicing `rows[s:e]` with step 1 and possibly
negative indices (`df = df[slice_start:slice_end]`). -/
def pySlice (rows : List Row) (s e : Option Int) : List Row :=
  let n := rows.length
  let a := match s with | none => 0 | some v => pySliceIdx n v
  let b := match e with | none => n | some v => pySliceIdx n v
  (rows.drop a).take (b - a)

def dfSlice (df : DataFrame) (s e : Option Int) : DataFrame :=
  { df with rows := pySlice df.rows s e }

/-- The tuple of arrays returned by `get_vectors`: either the inertial
4-tuple or the full-inertial 6-tuple. -/
inductive Vectors where
  | inertial (times : List ℚ) (gps_speed : List ℚ)
      (accelerations : List Vec3) (angular_velocities : List Vec3)
  | full (times : List ℚ) (coordinates : List (ℚ × ℚ)) (altitudes : List ℚ)
      (gps_speed : List ℚ) (accelerations : List Vec3)
      (angular_velocities : List Vec3)
deriving DecidableEq, Repr

/-- Extract a 3-channel series from three columns of the dataframe. -/
def colV3 (rows : List Row) (fx fy fz : Row → Option ℚ) : List Vec3 :=
  rows.map (fun r => ⟨(fx r).getD 0, (fy r).getD 0, (fz r).getD 0⟩)

/-- Piecewise-linear interpolation with extrapolation, standing in for
`scipy.interpolate.interp1d(kind='quadratic', fill_value='extrapolate')`,
an external library call at `input_manager.py` line 121.  No claim depends
on the interpolated values. -/
def interp1 : List ℚ → List ℚ → ℚ → ℚ
  | x0 :: x1 :: xs, y0 :: y1 :: ys, t =>
      if t ≤ x1 then y0 + (t - x0) * (y1 - y0) / (x1 - x0)
      else interp1 (x1 :: xs) (y1 :: ys) t
  | [_], y0 :: _, _ => y0
  | _, _, _ => 0

/-- Embedding of `get_vectors` (`input_manager.py` lines 88-132).  The
source has branches only for the inertial and full-inertial types; every
other type falls off the end of the Python function, which returns `None`
— modelled by `Option`. -/
def get_vectors (df : DataFrame) (input_type : InputType) : Option Vectors :=
  if input_type = .INERTIAL ∨ input_type = .UNMOD_INERTIAL then
    some (.inertial
      (df.rows.map (fun r => r.timestamp.getD 0))
      (df.rows.map (fun r => r.speed.getD 0))
      (colV3 df.rows Row.ax Row.ay Row.az)
      (colV3 df.rows Row.gx Row.gy Row.gz))
  else if input_type = .FULLINERTIAL then
    some (.full
      (df.rows.map (fun r => r.timestamp.getD 0))
      (df.rows.map (fun r => ((r.lon).getD 0, (r.lat).getD 0)))
      (df.rows.map (fun r => r.alt.getD 0))
      (df.rows.map (fun r => r.speed.getD 0))
      (colV3 df.rows Row.ax Row.ay Row.az)
      (colV3 df.rows Row.gx Row.gy Row.gz))
  else if input_type = .UNMOD_FULLINERTIAL then
    let clean_gnss := df.rows.filter (fun r => r.lat.isSome)
    let gnss_ts := clean_gnss.map (fun r => r.timestamp.getD 0)
    let gnss_lon := clean_gnss.map (fun r => r.lon.getD 0)
    let gnss_lat := clean_gnss.map (fun r => r.lat.getD 0)
    let gnss_alt := clean_gnss.map (fun r => r.alt.getD 0)
    let inertialRows := df.rows.filter (fun r => r.ax.isSome)
    let times := inertialRows.map (fun r => r.timestamp.getD 0)
    some (.full
      times
      (times.map (fun t => (interp1 gnss_ts gnss_lon t, interp1 gnss_ts gnss_lat t)))
      (times.map (fun t => interp1 gnss_ts gnss_alt t))
      (inertialRows.map (fun r => r.speed.getD 0))
      (colV3 inertialRows Row.ax Row.ay Row.az)
      (colV3 inertialRows Row.gx Row.gy Row.gz))
  else
    none

/-- Error kinds of the pipeline, named after the specification's §7 error
taxonomy; the Python code raises `Exception` with distinguishing
messages. -/
inductive PipelineError where
  | formatUnrecognized
  | formatNotAccepted
  | sliceStartNegative
  | sliceEndExceeds
  | stationaryNotFound
  | orderingError
deriving DecidableEq, Repr

/-- Model of the check `slice_start is not None and slice_start < 0`. -/
def startBadB : Option Int → Bool
  | some v => decide (v < 0)
  | none => false

/-- Model of the check `slice_end is not None and abs(slice_end) > df.shape[0]`. -/
def endBadB (rows : Nat) : Option Int → Bool
  | some v => decide (rows < v.natAbs)
  | none => false

/-- Both slice-bound validations pass. -/
def sliceOkB (rows : Nat) (s e : Option Int) : Bool :=
  !startBadB s && !endBadB rows e

/-- Embedding of `parse_input` (`input_manager.py` lines 135-178) from the
point where the dataframe has been read: detect the type; on a recognized
type validate the slice bounds, slice, check the accepted-types list and
extract the vectors; otherwise fail with the unrecognized-format error. -/
def parse_input (df : DataFrame) (filepath : List Char)
    (accepted_types : List InputType) (slice_start slice_end : Option Int) :
    Except PipelineError (Option Vectors) :=
  let input_type := detect_input_type df filepath
  if input_type = InputType.UNRECOGNIZED then
    .error .formatUnrecognized
  else if startBadB slice_start then
    .error .sliceStartNegative
  else if endBadB df.rows.length slice_end then
    .error .sliceEndExceeds
  else if accepted_types.contains input_type then
    .ok (get_vectors (dfSlice df slice_start slice_end) input_type)
  else
    .error .formatNotAccepted

/-- Is the result one of the two slice-bound errors? -/
def isSliceErr {α : Type} : Except PipelineError α → Bool
  | .error .sliceStartNegative => true
  | .error .sliceEndExceeds => true
  | _ => false

/-- Is the result one of the two format errors? -/
def isFormatErr {α : Type} : Except PipelineError α → Bool
  | .error .formatUnrecognized => true
  | .error .formatNotAccepted => true
  | _ => false

def isOkE {α : Type} : Except PipelineError α → Bool
  | .ok _ => true
  | .error _ => false

/-! ## Models of the helper modules imported by `__init__.py`

The modules `clean_data_utils.py`, `gnss_utils.py` and `integrate.py` are
imported by the pipeline but are not part of the repository snapshot; the
functions below are modelled from the specification, as their doc comments
record, and are faithful to the specification's wording. -/

/-- Rational stand-in for π, used only inside unit-conversion and
projection constants whose exact value no claim depends on. -/
def piApprox : ℚ := 355 / 113

def gravityConst : ℚ := 981 / 100

def degToRad : ℚ := piApprox / 180

def kmhToMs : ℚ := 1000 / 3600

/-- Modelled from the spec: `converts_measurement_units`
(`clean_data_utils.py`, spec §4.1) — convert acceleration from g to m/s²,
angular velocity from deg/s to rad/s, GNSS speed from km/h to m/s and
coordinates from degrees to radians; returns the four converted arrays
(the Python mutates them in place). -/
def converts_measurement_units (accelerations angular_velocities : List Vec3)
    (gps_speed : List ℚ) (coordinates : List (ℚ × ℚ)) :
    List Vec3 × List Vec3 × List ℚ × List (ℚ × ℚ) :=
  (accelerations.map (vsmul gravityConst),
   angular_velocities.map (vsmul degToRad),
   gps_speed.map (fun s => s * kmhToMs),
   coordinates.map (fun c => (c.1 * degToRad, c.2 * degToRad)))

/-- Truncated Taylor cosine, a rational stand-in for the trigonometric
cosine of the equirectangular projection. -/
def cosApprox (t : ℚ) : ℚ := 1 - t ^ 2 / 2 + t ^ 4 / 24 - t ^ 6 / 720

def earthRadius : ℚ := 6371000

/-- Modelled from the spec: `get_positions` (`gnss_utils.py`, spec §4.8) —
equirectangular projection of the (lon, lat) series plus altitude into a
local Cartesian series with origin at the first sample, together with a
derived heading series (finite-difference directions of travel; the
pipeline never uses the headings). -/
def get_positions (coordinates : List (ℚ × ℚ)) (altitudes : List ℚ) :
    List Vec3 × List Vec3 :=
  let lon0 := (coordinates.headD (0, 0)).1
  let lat0 := (coordinates.headD (0, 0)).2
  let alt0 := altitudes.headD 0
  let positions := List.zipWith (fun c a =>
      Vec3.mk (earthRadius * (c.1 - lon0) * cosApprox lat0)
              (earthRadius * (c.2 - lat0))
              (a - alt0)) coordinates altitudes
  let headings := (List.range positions.length).map (fun i =>
      vsub (positions.getD (i + 1) (positions.getD i vzero))
           (positions.getD i vzero))
  (positions, headings)

/-- The pipeline's moving-average window size (`__init__.py` line 45). -/
def window_size : Nat := 20

/-- Modelled from the spec: `reduce_disturbance` (`clean_data_utils.py`,
spec §4.2) — moving-average low-pass filter over a sliding window of size
`w`; edge windows are discarded rather than padded, so the output is
shorter than the input by `w` (`w / 2` trimmed from each end), and the
time vector is trimmed correspondingly and returned alongside. -/
def reduce_disturbance (times : List ℚ) (vectors : List Vec3) (w : Nat) :
    List ℚ × List Vec3 :=
  let out := (List.range (vectors.length - w)).map
      (fun i => vec3Mean ((vectors.drop i).take w))
  let ts := (times.drop (w / 2)).take (times.length - w)
  (ts, out)

/-- Model of the numpy slice `a[:, h:-h]` trimming `h` columns from each
end of a series (`__init__.py` line 61). -/
def trimEnds (l : List Vec3) (h : Nat) : List Vec3 :=
  (l.drop h).take (l.length - 2 * h)

/-- Modelled from the spec: `get_velocities` (`gnss_utils.py`, spec §4.8)
— velocity by finite-differencing position over time, kept at the length
of the position series (the last sample repeats the final backward
difference). -/
def get_velocities (times : List ℚ) (positions : List Vec3) : List Vec3 :=
  (List.range positions.length).map (fun i =>
    if i + 1 < positions.length then
      vsmul (1 / (times.getD (i + 1) 0 - times.getD i 0))
            (vsub (positions.getD (i + 1) vzero) (positions.getD i vzero))
    else
      vsmul (1 / (times.getD i 0 - times.getD (i - 1) 0))
            (vsub (positions.getD i vzero) (positions.getD (i - 1) vzero)))

/-- Modelled from the spec: speed threshold below which a sample counts as
stationary (spec §4.3, a fixed constant of `clean_data_utils.py`). -/
def speedThreshold : ℚ := 1 / 2

/-- Modelled from the spec: minimum number of consecutive stationary
samples for an interval to qualify (spec §4.3). -/
def minStationaryLen : Nat := 5

def belowThreshold (q : ℚ) : Bool := decide (q < speedThreshold)

/-- Group maximal runs of below-threshold samples into index intervals
[start, stop).  `n` is the index of the head of the remaining list and the
optional state holds the start of the currently open run. -/
def groupRunsAux : List ℚ → Nat → Option Nat → List (Nat × Nat)
  | [], _, none => []
  | [], n, some s => [(s, n)]
  | q :: rest, n, st =>
    if belowThreshold q then
      groupRunsAux rest (n + 1) (some (st.getD n))
    else
      match st with
      | none => groupRunsAux rest (n + 1) none
      | some s => (s, n) :: groupRunsAux rest (n + 1) none

/-- Modelled from the spec: `get_stationary_times` (`clean_data_utils.py`,
spec §4.3) — mark every speed sample below the threshold, group
consecutive stationary indices into intervals, discard intervals shorter
than the minimum duration; if none survives, fail with the
stationary-not-found error rather than returning an empty reference. -/
def get_stationary_times (speeds : List ℚ) :
    Except PipelineError (List (Nat × Nat)) :=
  let runs := groupRunsAux speeds 0 none
  let keep := runs.filter (fun p => decide (minStationaryLen ≤ p.2 - p.1))
  if keep.isEmpty then .error .stationaryNotFound else .ok keep

/-- Modelled from the spec: `clear_gyro_drift` (`clean_data_utils.py`,
spec §4.4) — subtract from the whole angular-velocity series the mean
angular velocity over the first stationary interval (the bias estimate). -/
def clear_gyro_drift (angular_velocities : List Vec3)
    (stationary_times : List (Nat × Nat)) : List Vec3 :=
  let p := stationary_times.headD (0, 0)
  let bias := vec3Mean ((angular_velocities.drop p.1).take (p.2 - p.1))
  angular_velocities.map (fun v => vsub v bias)

/-- Modelled from the spec: `normalize_timestamp` (`clean_data_utils.py`)
— shift the time vector so that sample 0 is at time 0 (spec §3). -/
def normalize_timestamp (times : List ℚ) : List ℚ :=
  let t0 := times.headD 0
  times.map (fun t => t - t0)

/-- Modelled from the spec: `correct_z_orientation` (`clean_data_utils.py`,
spec §4.5) — estimate the gravity direction as the mean acceleration over
the first stationary interval, build the rotation taking that direction to
the canonical vertical axis (Rodrigues form `w + v×w + (v×(v×w))/(1+c)`
for unit gravity direction `u`, `v = u × e_z`, `c = u ⋅ e_z`) and apply it
to both the acceleration and the angular-velocity series. -/
def correct_z_orientation (accelerations angular_velocities : List Vec3)
    (stationary_times : List (Nat × Nat)) : List Vec3 × List Vec3 :=
  let p := stationary_times.headD (0, 0)
  let g := vec3Mean ((accelerations.drop p.1).take (p.2 - p.1))
  let u := vsmul (1 / norm3 g) g
  let ez : Vec3 := ⟨0, 0, 1⟩
  let v := cross u ez
  let c := dot u ez
  let rot := fun w =>
    vadd (vadd w (cross v w)) (vsmul (1 / (1 + c)) (cross v (cross v w)))
  (accelerations.map rot, angular_velocities.map rot)

/-- Embedding of the gravity-removal statement at `__init__.py` line 80:
`accelerations[2] -= accelerations[2, start:stop].mean()` — subtract from
the z channel alone the mean z acceleration over the first stationary
interval; x and y channels are untouched. -/
def removeGravity (accelerations : List Vec3) (s e : Nat) : List Vec3 :=
  let m := ratMean (((accelerations.map Vec3.z).drop s).take (e - s))
  accelerations.map (fun v => ⟨v.x, v.y, v.z - m⟩)

/-- Modelled from the spec: `correct_xy_orientation`
(`clean_data_utils.py`, spec §4.5) — estimate the dominant horizontal
acceleration direction and rotate about the vertical axis so that it
aligns with the forward (x) axis; the angular-velocity argument is unused
by the model. -/
def correct_xy_orientation (accelerations angular_velocities : List Vec3) :
    List Vec3 :=
  let d := vec3Mean accelerations
  let r := ratSqrt (d.x ^ 2 + d.y ^ 2)
  let c := d.x / r
  let s := d.y / r
  accelerations.map (fun v => ⟨c * v.x + s * v.y, c * v.y - s * v.x, v.z⟩)

/-- Row-major 3×3 matrix. -/
structure Mat3 where
  r1 : Vec3
  r2 : Vec3
  r3 : Vec3
deriving DecidableEq, Repr

def matApply (m : Mat3) (v : Vec3) : Vec3 := ⟨dot m.r1 v, dot m.r2 v, dot m.r3 v⟩

def matMul (a b : Mat3) : Mat3 :=
  let c1 : Vec3 := ⟨b.r1.x, b.r2.x, b.r3.x⟩
  let c2 : Vec3 := ⟨b.r1.y, b.r2.y, b.r3.y⟩
  let c3 : Vec3 := ⟨b.r1.z, b.r2.z, b.r3.z⟩
  ⟨⟨dot a.r1 c1, dot a.r1 c2, dot a.r1 c3⟩,
   ⟨dot a.r2 c1, dot a.r2 c2, dot a.r2 c3⟩,
   ⟨dot a.r3 c1, dot a.r3 c2, dot a.r3 c3⟩⟩

def idMat : Mat3 := ⟨⟨1, 0, 0⟩, ⟨0, 1, 0⟩, ⟨0, 0, 1⟩⟩

/-- First-order rotation increment `I + skew(w)` for a small rotation
vector `w` (gyroscope mechanization step, spec §4.6). -/
def smallRot (w : Vec3) : Mat3 :=
  ⟨⟨1, -w.z, w.y⟩, ⟨w.z, 1, -w.x⟩, ⟨-w.y, w.x, 1⟩⟩

/-- Sequential scan of the frame rotation: carry the running orientation,
rotate the current acceleration sample by it, then advance the orientation
by the first-order increment over the local time step. -/
def rotAux (times : List ℚ) (angvel : List Vec3) :
    Mat3 → Nat → List Vec3 → List Vec3
  | _, _, [] => []
  | r, i, a :: rest =>
    let out := matApply r a
    let dt := times.getD (i + 1) 0 - times.getD i 0
    let w := angvel.getD i vzero
    rotAux times angvel (matMul r (smallRot (vsmul dt w))) (i + 1) rest
      |> (out :: ·)

/-- Modelled from the spec: `rotate_accelerations` (`integrate.py`, spec
§4.6) — fold over time steps carrying an orientation accumulator
initialized to the identity, rotating each vehicle-frame acceleration
sample into the laboratory frame. -/
def rotate_accelerations (times : List ℚ)
    (accelerations angular_velocities : List Vec3) : List Vec3 :=
  rotAux times angular_velocities idMat 0 accelerations

/-- Modelled from the spec: `align_to_world` (`gnss_utils.py`, spec §4.7)
— compute the travel direction from the GNSS positions after the first
stationary interval, the heading implied by the accelerations, and apply
the single rotation about the vertical axis reconciling the two to the
whole acceleration series. -/
def align_to_world (gnss_positions accelerations : List Vec3)
    (stationary_times : List (Nat × Nat)) : List Vec3 :=
  let p := stationary_times.headD (0, 0)
  let pStart := gnss_positions.getD p.2 vzero
  let pEnd := gnss_positions.getD (gnss_positions.length - 1) vzero
  let gdir := vsub pEnd pStart
  let adir := vec3Mean accelerations
  let na := ratSqrt (adir.x ^ 2 + adir.y ^ 2)
  let ng := ratSqrt (gdir.x ^ 2 + gdir.y ^ 2)
  let c := (adir.x * gdir.x + adir.y * gdir.y) / (na * ng)
  let s := (adir.x * gdir.y - adir.y * gdir.x) / (na * ng)
  accelerations.map (fun v => ⟨c * v.x - s * v.y, s * v.x + c * v.y, v.z⟩)

/-- Modelled from the spec: `sign_inversion_is_necessary`
(`clean_data_utils.py`, spec §4.10) — report the 180° ambiguity when the
mean sign of the integrated forward velocity is negative. -/
def sign_inversion_is_necessary (velocities : List Vec3) : Bool :=
  decide (ratMean (velocities.map Vec3.x) < 0)

/-- Embedding of the sign-correction branch (`__init__.py` lines 97-99):
when the sign-inversion test reports anti-correlation, negate both the
acceleration series and the integrated velocity series; otherwise leave
both unchanged. -/
def signCorrectStep (inverts : Bool) (accelerations velocities : List Vec3) :
    List Vec3 × List Vec3 :=
  if inverts then (accelerations.map vneg, velocities.map vneg)
  else (accelerations, velocities)

/-- Is the time vector strictly increasing? -/
def strictIncrB : List ℚ → Bool
  | [] => true
  | [_] => true
  | a :: b :: r => decide (a < b) && strictIncrB (b :: r)

/-- Anchoring step of the integrator: every `freq` reference samples,
overwrite the running value with the corresponding reference value. -/
def anchorAt (adjust : Option (List Vec3)) (freq : Nat) (i : Nat)
    (v : Vec3) : Vec3 :=
  match adjust with
  | none => v
  | some ref => if i % freq = 0 then ref.getD i v else v

/-- Running quadrature loop: emit the (possibly anchored) current value,
then advance it by the quadrature increment over the next time step. -/
def simpsAux (times : List ℚ) (adjust : Option (List Vec3)) (freq : Nat) :
    Nat → Vec3 → List Vec3 → List Vec3
  | _, _, [] => []
  | i, cur, f :: rest =>
    let v := anchorAt adjust freq i cur
    let next := match rest with
      | [] => v
      | g :: _ =>
        vadd v (vsmul ((times.getD (i + 1) 0 - times.getD i 0) / 2) (vadd f g))
    simpsAux times adjust freq (i + 1) next rest |> (v :: ·)

/-- Modelled from the spec: `simps_integrate` (`integrate.py`, spec §4.9)
— integrate a vector series over a time vector with a quadrature rule
producing a running sum starting at the initial value (the trapezoidal
member of the spec's quadrature family), periodically overwriting the
running value with the reference series when one is supplied; fail with
the ordering error when the time vector is not strictly increasing. -/
def simps_integrate (times : List ℚ) (vectors : List Vec3) (initial : Vec3)
    (adjust_data : Option (List Vec3)) (adjust_frequency : Nat) :
    Except PipelineError (List Vec3) :=
  if strictIncrB times then
    .ok (simpsAux times adjust_data adjust_frequency 0 initial vectors)
  else
    .error .orderingError

/-! ## Embedding of the pipeline `get_positions_times` (`__init__.py`) -/

/-- The six aligned arrays produced by the input adapter for the
full-inertial format consumed by the pipeline (`parse_input` output at
`__init__.py` line 48).  The file-reading step itself is not embeddable,
so the pipeline is embedded from this point. -/
structure ParsedInput where
  times : List ℚ
  coordinates : List (ℚ × ℚ)
  altitudes : List ℚ
  gps_speed : List ℚ
  accelerations : List Vec3
  angular_velocities : List Vec3
deriving DecidableEq, Repr

/-- Intermediate state of the pipeline after unit conversion, GNSS
projection, disturbance reduction and trimming (`__init__.py` lines
51-66), before stationary-interval detection. -/
structure PreData where
  times1 : List ℚ
  speed0 : List ℚ
  acc1 : List Vec3
  av1 : List Vec3
  gnss1 : List Vec3
  realVel : List Vec3
  realSpeeds : List ℚ
deriving Repr

/-- Embedding of `__init__.py` lines 51-66: convert units, project GNSS
coordinates, reduce disturbance on accelerations (keeping the trimmed time
vector) and on angular velocities, trim the GNSS positions by
`round(window_size / 2)` at each end, then derive reference velocities and
scalar speeds. -/
def pipelinePre (inp : ParsedInput) : PreData :=
  let conv := converts_measurement_units inp.accelerations
      inp.angular_velocities inp.gps_speed inp.coordinates
  let acc0 := conv.1
  let av0 := conv.2.1
  let speed0 := conv.2.2.1
  let coords0 := conv.2.2.2
  let gnss0 := (get_positions coords0 inp.altitudes).1
  let rd1 := reduce_disturbance inp.times acc0 window_size
  let times1 := rd1.1
  let acc1 := rd1.2
  let av1 := (reduce_disturbance times1 av0 window_size).2
  let gnss1 := trimEnds gnss0 (window_size / 2)
  let realVel := get_velocities times1 gnss1
  ⟨times1, speed0, acc1, av1, gnss1, realVel, realVel.map norm3⟩

/-- Embedding of `__init__.py` lines 71-103, the pipeline stages that run
once the stationary intervals `st` are known: gyro-drift removal,
timestamp normalization, z- and xy-orientation correction, gravity
removal, frame rotation, world alignment, anchored integration to
velocity, sign correction and anchored integration to position. -/
def pipelineRest (pre : PreData) (st : List (Nat × Nat)) :
    Except PipelineError (List Vec3 × List ℚ) :=
  let av2 := clear_gyro_drift pre.av1 st
  let times2 := normalize_timestamp pre.times1
  let zcorr := correct_z_orientation pre.acc1 av2 st
  let acc2 := zcorr.1
  let av3 := zcorr.2
  let p := st.headD (0, 0)
  let acc3 := removeGravity acc2 p.1 p.2
  let acc4 := correct_xy_orientation acc3 av3
  let acc5 := rotate_accelerations times2 acc4 av3
  let acc6 := align_to_world pre.gnss1 acc5 st
  let initialSpeed : Vec3 := ⟨pre.speed0.headD 0, 0, 0⟩
  match simps_integrate times2 acc6 initialSpeed (some pre.realVel) 1 with
  | .error err => .error err
  | .ok correctVel =>
    let sc := signCorrectStep (sign_inversion_is_necessary correctVel)
        acc6 correctVel
    let correctVel2 := sc.2
    match simps_integrate times2 correctVel2 vzero (some pre.gnss1) 1 with
    | .error err => .error err
    | .ok correctPos => .ok (correctPos, times2)

/-- Embedding of `get_positions_times` (`__init__.py` lines 37-103) from
the parsed input onwards: run the pre-stationary stages, detect the
stationary intervals (failing if none qualifies), then run the remaining
stages and return the position series with its time vector. -/
def get_positions_times (inp : ParsedInput) :
    Except PipelineError (List Vec3 × List ℚ) :=
  let pre := pipelinePre inp
  match get_stationary_times pre.realSpeeds with
  | .error err => .error err
  | .ok st => pipelineRest pre st

/-- On success the returned position series has exactly one column per
entry of the returned time vector. -/
def resultLengthsMatch : Except PipelineError (List Vec3 × List ℚ) → Prop
  | .ok pr => pr.1.length = pr.2.length
  | .error _ => True

/-- Value of a successful integration, empty on failure. -/
def exVal : Except PipelineError (List Vec3) → List Vec3
  | .ok l => l
  | .error _ => []

/-- The anchored-integrator contract of spec §4.9 and §8: on a strictly
increasing time vector the integrator succeeds, the output length equals
the input length, the first output sample is the initial value (or the
first reference value when a reference is anchored at index 0), and with
`adjust_frequency = 1` the running output equals the reference at every
anchor index. -/
def simpsContract (times : List ℚ) (vectors : List Vec3) (initial : Vec3)
    (adjust : Option (List Vec3)) (freq : Nat) (ref : List Vec3) : Prop :=
  isOkE (simps_integrate times vectors initial adjust freq) = true ∧
  (exVal (simps_integrate times vectors initial adjust freq)).length
      = vectors.length ∧
  (adjust = none → vectors ≠ [] →
    (exVal (simps_integrate times vectors initial adjust freq)).headD vzero
      = initial) ∧
  (∀ r, adjust = some r → vectors ≠ [] → r ≠ [] →
    (exVal (simps_integrate times vectors initial adjust freq)).headD vzero
      = r.headD vzero) ∧
  (∀ i, i < vectors.length → i < ref.length →
    (exVal (simps_integrate times vectors initial (some ref) 1)).getD i vzero
      = ref.getD i vzero)

/-- After the disturbance-reduction stage, the time vector, the filtered
accelerations and angular velocities, and the trimmed GNSS positions all
carry the same number of samples. -/
def trimContract (inp : ParsedInput) : Prop :=
  (pipelinePre inp).times1.length = (pipelinePre inp).acc1.length ∧
  (pipelinePre inp).times1.length = (pipelinePre inp).av1.length ∧
  (pipelinePre inp).times1.length = (pipelinePre inp).gnss1.length

/-- A maximal-duration candidate: an index interval [s, e) of the speed
series wholly below the stationary threshold and at least the minimum
duration long. -/
def qualifyingRun (speeds : List ℚ) (s e : Nat) : Prop :=
  minStationaryLen ≤ e - s ∧ e ≤ speeds.length ∧
  ∀ i, s ≤ i → i < e → belowThreshold (speeds.getD i 0) = true

/-! ## Concrete inputs used by witnesses and counterexamples -/

def emptyParsedInput : ParsedInput := ⟨[], [], [], [], [], []⟩

def sampleTimes : List ℚ := (List.range 40).map (fun i => (i : ℚ))

/-- A 40-sample stationary recording: constant coordinates, zero speeds
and zero inertial channels. -/
def sampleInput : ParsedInput :=
  ⟨sampleTimes, List.replicate 40 (0, 0), List.replicate 40 0,
   List.replicate 40 0, List.replicate 40 vzero, List.replicate 40 vzero⟩

def rowFull : Row :=
  ⟨some 0, some 0, some 0, some 0, some 0, some 0, some 0, some 0,
   some 0, some 0, some 0⟩

def dfTwo : DataFrame := ⟨14, [rowFull, rowFull]⟩

def dfOne : DataFrame := ⟨4, [rowFull]⟩

def fpInertial : List Char := "inertial.tsv".toList

def fpAcc : List Char := "acc.tsv".toList

/-! ## Helper lemmas -/

theorem getD_irrel {α : Type} (l : List α) :
    ∀ (k : Nat), k < l.length → ∀ (a b : α), l.getD k a = l.getD k b := by
  induction l with
  | nil => intro k hk; simp at hk
  | cons x xs ih =>
    intro k hk a b
    cases k with
    | zero => rfl
    | succ k' => simpa using ih k' (by simpa using hk) a b

theorem simpsAux_length (times : List ℚ) (adjust : Option (List Vec3))
    (freq : Nat) :
    ∀ (vecs : List Vec3) (i : Nat) (cur : Vec3),
    (simpsAux times adjust freq i cur vecs).length = vecs.length := by
  intro vecs
  induction vecs with
  | nil => intro i cur; rfl
  | cons f rest ih => intro i cur; simp [simpsAux, ih]

theorem simps_ok_val {times : List ℚ} {vecs : List Vec3} {initial : Vec3}
    {adjust : Option (List Vec3)} {freq : Nat} {out : List Vec3}
    (h : simps_integrate times vecs initial adjust freq = .ok out) :
    out = simpsAux times adjust freq 0 initial vecs := by
  unfold simps_integrate at h
  split at h
  · cases h; rfl
  · cases h

theorem simps_ok_of_incr {times : List ℚ} (vecs : List Vec3) (initial : Vec3)
    (adjust : Option (List Vec3)) (freq : Nat)
    (h : strictIncrB times = true) :
    simps_integrate times vecs initial adjust freq
      = .ok (simpsAux times adjust freq 0 initial vecs) := by
  unfold simps_integrate
  rw [if_pos h]

theorem simpsAux_anchor (times : List ℚ) (ref : List Vec3) :
    ∀ (vecs : List Vec3) (k : Nat) (cur : Vec3) (j : Nat),
    j < vecs.length → k + j < ref.length →
    (simpsAux times (some ref) 1 k cur vecs).getD j vzero
      = ref.getD (k + j) vzero := by
  intro vecs
  induction vecs with
  | nil => intro k cur j hj _; simp at hj
  | cons f rest ih =>
    intro k cur j hj hk
    cases j with
    | zero =>
      simp only [simpsAux, anchorAt, Nat.mod_one, if_pos rfl]
      simpa using getD_irrel ref k (by simpa using hk) cur vzero
    | succ j' =>
      have h1 : j' < rest.length := by simpa using hj
      have h2 : (k + 1) + j' < ref.length := by omega
      have h3 : k + (j' + 1) = (k + 1) + j' := by omega
      simp only [simpsAux]
      simpa [h3] using ih (k + 1) _ j' h1 h2

theorem rotAux_length (times : List ℚ) (angvel : List Vec3) :
    ∀ (vecs : List Vec3) (r : Mat3) (i : Nat),
    (rotAux times angvel r i vecs).length = vecs.length := by
  intro vecs
  induction vecs with
  | nil => intro r i; rfl
  | cons a rest ih => intro r i; simp [rotAux, ih]

theorem signCorrectStep_lengths (b : Bool) (a v : List Vec3) :
    (signCorrectStep b a v).1.length = a.length ∧
    (signCorrectStep b a v).2.length = v.length := by
  cases b <;> simp [signCorrectStep]

theorem pipelinePre_len (inp : ParsedInput) :
    (pipelinePre inp).times1.length = inp.times.length - window_size ∧
    (pipelinePre inp).acc1.length
      = inp.accelerations.length - window_size ∧
    (pipelinePre inp).av1.length
      = inp.angular_velocities.length - window_size ∧
    (pipelinePre inp).gnss1.length
      = min inp.coordinates.length inp.altitudes.length - window_size := by
  refine ⟨?_, ?_, ?_, ?_⟩ <;>
    simp [pipelinePre, converts_measurement_units, reduce_disturbance,
      trimEnds, get_positions, window_size] <;>
    omega

theorem groupRunsAux_sound (speeds : List ℚ) :
    ∀ (l : List ℚ) (n : Nat) (st : Option Nat),
    (∀ i, i < l.length → l.getD i 0 = speeds.getD (n + i) 0) →
    n + l.length = speeds.length →
    (∀ s0, st = some s0 → s0 < n ∧
      ∀ i, s0 ≤ i → i < n → belowThreshold (speeds.getD i 0) = true) →
    ∀ s e, (s, e) ∈ groupRunsAux l n st →
      s < e ∧ e ≤ speeds.length ∧
      ∀ i, s ≤ i → i < e → belowThreshold (speeds.getD i 0) = true := by
  intro l
  induction l with
  | nil =>
    intro n st hrel hlen hinv s e hmem
    cases st with
    | none => simp [groupRunsAux] at hmem
    | some s0 =>
      simp [groupRunsAux] at hmem
      obtain ⟨hs, he⟩ := hmem
      subst hs; subst he
      obtain ⟨h1, h2⟩ := hinv s rfl
      refine ⟨h1, by simp at hlen; omega, h2⟩
  | cons q rest ih =>
    intro n st hrel hlen hinv s e hmem
    have hq : q = speeds.getD n 0 := by simpa using hrel 0 (by simp)
    have hrel' : ∀ i, i < rest.length →
        rest.getD i 0 = speeds.getD (n + 1 + i) 0 := by
      intro i hi
      have h4 := hrel (i + 1) (by simpa using Nat.succ_lt_succ hi)
      have h3 : n + (i + 1) = n + 1 + i := by omega
      simpa [h3] using h4
    have hlen' : n + 1 + rest.length = speeds.length := by
      simp at hlen; omega
    simp only [groupRunsAux] at hmem
    by_cases hb : belowThreshold q = true
    · rw [if_pos hb] at hmem
      refine ih (n + 1) (some (st.getD n)) hrel' hlen' ?_ s e hmem
      intro s0 hs0
      cases st with
      | none =>
        simp at hs0
        subst hs0
        refine ⟨by omega, fun i h1 h2 => ?_⟩
        have h5 : i = n := by omega
        subst h5
        rw [← hq]; exact hb
      | some sPrev =>
        simp at hs0
        subst hs0
        obtain ⟨hp1, hp2⟩ := hinv sPrev rfl
        refine ⟨by omega, fun i h1 h2 => ?_⟩
        rcases Nat.lt_or_ge i n with h | h
        · exact hp2 i h1 h
        · have h5 : i = n := by omega
          subst h5
          rw [← hq]; exact hb
    · rw [if_neg hb] at hmem
      cases st with
      | none =>
        exact ih (n + 1) none hrel' hlen' (by intro s0 h; cases h) s e hmem
      | some s0 =>
        rcases List.mem_cons.mp hmem with hthis | hrest2
        · injection hthis with hs he
          subst hs; subst he
          obtain ⟨hp1, hp2⟩ := hinv s rfl
          exact ⟨hp1, by omega, hp2⟩
        · exact ih (n + 1) none hrel' hlen' (by intro s1 h; cases h) s e hrest2

theorem stationary_err_of_no_run (speeds : List ℚ)
    (h : ∀ s e, ¬ qualifyingRun speeds s e) :
    get_stationary_times speeds = .error .stationaryNotFound := by
  have hkey : (groupRunsAux speeds 0 none).filter
      (fun p => decide (minStationaryLen ≤ p.2 - p.1)) = [] := by
    by_contra hne
    obtain ⟨p, hmemf⟩ := List.exists_mem_of_ne_nil _ hne
    obtain ⟨hmemruns, hmin⟩ := List.mem_filter.mp hmemf
    obtain ⟨h1, h2, h3⟩ := groupRunsAux_sound speeds speeds 0 none
      (fun i _ => by simp) (by simp) (fun s0 hs0 => by cases hs0)
      p.1 p.2 (by simpa using hmemruns)
    exact h p.1 p.2 ⟨by simpa using hmin, h2, h3⟩
  unfold get_stationary_times
  simp [hkey]

/-! ## Claim theorems -/

/-- C2: for every strictly increasing time vector, input vector series and
initial value, the anchored integrator succeeds and returns an output of
the input's length whose first sample is the initial value (or the first
reference value when a reference is anchored at the first snap), and with
`adjust_frequency = 1` the running output equals the reference series at
every anchor index exactly. -/
theorem simps_integrate_contract_holds (times : List ℚ) (vectors : List Vec3)
    (initial : Vec3) (adjust : Option (List Vec3)) (freq : Nat)
    (ref : List Vec3) (h : strictIncrB times = true) :
    simpsContract times vectors initial adjust freq ref := by
  have hok : ∀ (a : Option (List Vec3)) (f : Nat),
      simps_integrate times vectors initial a f
        = .ok (simpsAux times a f 0 initial vectors) :=
    fun a f => simps_ok_of_incr vectors initial a f h
  refine ⟨?_, ?_, ?_, ?_, ?_⟩
  · rw [hok]; rfl
  · rw [hok]
    simpa [exVal] using simpsAux_length times adjust freq vectors 0 initial
  · intro ha hne
    subst ha
    rw [hok]
    cases vectors with
    | nil => exact absurd rfl hne
    | cons f rest => simp [exVal, simpsAux, anchorAt]
  · intro r ha hne hr
    subst ha
    rw [hok]
    cases vectors with
    | nil => exact absurd rfl hne
    | cons f rest =>
      cases r with
      | nil => exact absurd rfl hr
      | cons r0 rs => simp [exVal, simpsAux, anchorAt]
  · intro i hi hr
    rw [hok]
    simpa [exVal] using
      simpsAux_anchor times ref vectors 0 initial i hi (by simpa using hr)

/-- Witness for C2 at a concrete three-sample input. -/
theorem simps_integrate_contract_witness :
    simpsContract [0, 1, 2] [vzero, vzero, vzero] vzero none 1 [vzero] :=
  simps_integrate_contract_holds [0, 1, 2] [vzero, vzero, vzero] vzero none 1
    [vzero] (by decide)

/-- C3: whenever no index run of the pipeline's speed series stays below
the stationary threshold for at least the minimum duration, the pipeline
fails with the stationary-not-found error instead of continuing with an
empty stationary reference. -/
theorem pipeline_fails_without_stationary (inp : ParsedInput)
    (h : ∀ s e, ¬ qualifyingRun (pipelinePre inp).realSpeeds s e) :
    get_positions_times inp = .error .stationaryNotFound := by
  show (match get_stationary_times (pipelinePre inp).realSpeeds with
    | .error err => .error err
    | .ok st => pipelineRest (pipelinePre inp) st)
      = Except.error PipelineError.stationaryNotFound
  rw [stationary_err_of_no_run _ h]

/-- Witness for C3: the empty recording has no qualifying run and the
pipeline reports the stationary-not-found error on it. -/
theorem pipeline_fails_without_stationary_witness :
    get_positions_times emptyParsedInput = .error .stationaryNotFound :=
  pipeline_fails_without_stationary emptyParsedInput (by
    intro s e hq
    obtain ⟨h1, h2, -⟩ := hq
    have hlen : (pipelinePre emptyParsedInput).realSpeeds.length = 0 := rfl
    rw [hlen] at h2
    have h5 : minStationaryLen = 5 := rfl
    omega)

/-- C6: when the sign-inversion test reports anti-correlation the
correction step negates every element of both the acceleration series and
the integrated velocity series, and when it reports correlation it leaves
both series unchanged. -/
theorem sign_correction_effect (accelerations velocities : List Vec3) :
    signCorrectStep true accelerations velocities
      = (accelerations.map vneg, velocities.map vneg) ∧
    signCorrectStep false accelerations velocities
      = (accelerations, velocities) :=
  ⟨rfl, rfl⟩

/-- C7: the gravity-removal step subtracts from the z channel alone the
mean vertical acceleration over the first stationary interval, leaving the
x and y channels (and the series length) unchanged; the time vector is not
an input of this step and is therefore untouched by it. -/
theorem gravity_removal_only_z (accelerations : List Vec3) (s e : Nat) :
    (removeGravity accelerations s e).map Vec3.x
      = accelerations.map Vec3.x ∧
    (removeGravity accelerations s e).map Vec3.y
      = accelerations.map Vec3.y ∧
    (removeGravity accelerations s e).map Vec3.z
      = accelerations.map (fun v => v.z -
          ratMean (((accelerations.map Vec3.z).drop s).take (e - s))) ∧
    (removeGravity accelerations s e).length = accelerations.length := by
  refine ⟨?_, ?_, ?_, ?_⟩ <;>
    simp [removeGravity, List.map_map, Function.comp]

/-- C9: the embedded pipeline is a pure function of the parsed input — two
runs on identical inputs produce identical outputs (the source contains no
randomness and no clock access, which the pure embedding reflects). -/
theorem pipeline_deterministic (inp1 inp2 : ParsedInput) (h : inp1 = inp2) :
    get_positions_times inp1 = get_positions_times inp2 := by
  rw [h]

/-- Witness for C9 at a concrete input. -/
theorem pipeline_deterministic_witness :
    get_positions_times sampleInput = get_positions_times sampleInput :=
  pipeline_deterministic sampleInput sampleInput rfl

/-- C4 counterexample: a recognized, accepted input with two rows and
`slice_start = 5` — the bound lies outside the recording length, yet
`parse_input` raises no error and proceeds, refuting the claim that both
bounds are validated against the number of rows. -/
theorem slice_start_beyond_rows_accepted :
    dfTwo.rows.length < 5 ∧
    isOkE (parse_input dfTwo fpInertial allInputTypes (some 5) none)
      = true := by
  refine ⟨by decide, by decide⟩

/-- C4 (amended): `parse_input` raises a slice error exactly when the
detected type is recognized and either `slice_start` is negative or the
absolute value of `slice_end` exceeds the number of rows; a `slice_start`
beyond the recording length is not rejected. -/
theorem parse_input_slice_characterization (df : DataFrame) (fp : List Char)
    (accepted : List InputType) (s e : Option Int) :
    isSliceErr (parse_input df fp accepted s e) = true ↔
      (detect_input_type df fp ≠ .UNRECOGNIZED ∧
        ((∃ v, s = some v ∧ v < 0) ∨
         (∃ v, e = some v ∧ df.rows.length < v.natAbs))) := by
  simp only [parse_input]
  split
  · rename_i h
    exact iff_of_false (by simp [isSliceErr]) (fun hc => hc.1 h)
  · rename_i h
    split
    · rename_i hs
      refine iff_of_true rfl ⟨h, Or.inl ?_⟩
      cases s with
      | none => simp [startBadB] at hs
      | some v =>
        refine ⟨v, rfl, ?_⟩
        simpa [startBadB] using hs
    · rename_i hs
      split
      · rename_i he
        refine iff_of_true rfl ⟨h, Or.inr ?_⟩
        cases e with
        | none => simp [endBadB] at he
        | some v =>
          refine ⟨v, rfl, ?_⟩
          simpa [endBadB] using he
      · rename_i he
        have hnostart : ¬ ∃ v, s = some v ∧ v < 0 := by
          rintro ⟨v, hv, hlt⟩
          subst hv
          simp [startBadB] at hs
          omega
        have hnoend : ¬ ∃ v, e = some v ∧ df.rows.length < v.natAbs := by
          rintro ⟨v, hv, hgt⟩
          subst hv
          simp [endBadB] at he
          omega
        have hrhs : ¬ (detect_input_type df fp ≠ .UNRECOGNIZED ∧
            ((∃ v, s = some v ∧ v < 0) ∨
             (∃ v, e = some v ∧ df.rows.length < v.natAbs))) := by
          rintro ⟨-, h1 | h2⟩
          · exact hnostart h1
          · exact hnoend h2
        split
        · exact iff_of_false (by simp [isSliceErr]) hrhs
        · exact iff_of_false (by simp [isSliceErr]) hrhs

/-- C5 counterexample: a recognized input whose type is not in the
accepted list but whose `slice_start` is negative — the run fails with a
slice error, not a format error, refuting the unconditional
if-and-only-if. -/
theorem slice_error_preempts_format_error :
    detect_input_type dfTwo fpInertial ≠ .UNRECOGNIZED ∧
    (([] : List InputType).contains (detect_input_type dfTwo fpInertial)
      = false) ∧
    isFormatErr (parse_input dfTwo fpInertial [] (some (-1)) none)
      = false := by
  refine ⟨by decide, by decide, by decide⟩

/-- C5 (amended): `parse_input` raises a format error exactly when the
detected type is `UNRECOGNIZED`, or when the slice bounds pass validation
and the detected type is not in the accepted-types list (an invalid slice
bound preempts the not-accepted check with a slice error). -/
theorem parse_input_format_characterization (df : DataFrame)
    (fp : List Char) (accepted : List InputType) (s e : Option Int) :
    isFormatErr (parse_input df fp accepted s e) = true ↔
      (detect_input_type df fp = .UNRECOGNIZED ∨
        (sliceOkB df.rows.length s e = true ∧
         accepted.contains (detect_input_type df fp) = false)) := by
  simp only [parse_input]
  split
  · rename_i h
    exact iff_of_true rfl (Or.inl h)
  · rename_i h
    split
    · rename_i hs
      refine iff_of_false (by simp [isFormatErr]) ?_
      rintro (h1 | ⟨h2, -⟩)
      · exact h h1
      · simp [sliceOkB, hs] at h2
    · rename_i hs
      split
      · rename_i he
        refine iff_of_false (by simp [isFormatErr]) ?_
        rintro (h1 | ⟨h2, -⟩)
        · exact h h1
        · simp [sliceOkB, he] at h2
      · rename_i he
        have hs' : startBadB s = false := by
          cases hsb : startBadB s
          · rfl
          · exact absurd hsb hs
        have he' : endBadB df.rows.length e = false := by
          cases heb : endBadB df.rows.length e
          · rfl
          · exact absurd heb he
        have hok : sliceOkB df.rows.length s e = true := by
          simp [sliceOkB, hs', he']
        split
        · rename_i hacc
          refine iff_of_false (by simp [isFormatErr]) ?_
          rintro (h1 | ⟨-, h2⟩)
          · exact h h1
          · simp [hacc] at h2
        · rename_i hacc
          refine iff_of_true rfl (Or.inr ⟨hok, ?_⟩)
          cases hc : accepted.contains (detect_input_type df fp)
          · rfl
          · exact absurd hc hacc

/-- C10: on a recognized input whose detected type is `ACCELERATION`,
`GNSS` or `GYROSCOPE`, accepted and with valid slicing, `parse_input`
raises nothing and returns `None` (the embedded `Option.none`): the
`get_vectors` extractor has no branch for these types and falls through. -/
theorem parse_input_fallthrough_none (df : DataFrame) (fp : List Char)
    (accepted : List InputType) (s e : Option Int)
    (h1 : detect_input_type df fp = .ACCELERATION ∨
          detect_input_type df fp = .GNSS ∨
          detect_input_type df fp = .GYROSCOPE)
    (h2 : accepted.contains (detect_input_type df fp) = true)
    (h3 : sliceOkB df.rows.length s e = true) :
    parse_input df fp accepted s e = .ok none := by
  have hne : ¬ detect_input_type df fp = .UNRECOGNIZED := by
    rcases h1 with h | h | h <;> simp [h]
  simp only [sliceOkB, Bool.and_eq_true, Bool.not_eq_true'] at h3
  have hget : get_vectors (dfSlice df s e) (detect_input_type df fp)
      = none := by
    rcases h1 with h | h | h <;> rw [h] <;> rfl
  simp only [parse_input]
  rw [if_neg hne, if_neg (by simp [h3.1]), if_neg (by simp [h3.2]),
    if_pos h2, hget]

/-- Witness for C10: a one-row file whose name contains `acc`. -/
theorem parse_input_fallthrough_none_witness :
    parse_input dfOne fpAcc [InputType.ACCELERATION] none none
      = .ok none :=
  parse_input_fallthrough_none dfOne fpAcc [InputType.ACCELERATION]
    none none (Or.inl (by decide)) (by decide) (by decide)

theorem pipelineRest_lengths (pre : PreData) (st : List (Nat × Nat))
    (h : pre.times1.length = pre.acc1.length) :
    resultLengthsMatch (pipelineRest pre st) := by
  simp only [pipelineRest]
  split
  · simp [resultLengthsMatch]
  · rename_i correctVel hs1
    split
    · simp [resultLengthsMatch]
    · rename_i correctPos hs2
      simp only [resultLengthsMatch]
      have e1 := simps_ok_val hs1
      have e2 := simps_ok_val hs2
      subst e1
      subst e2
      rw [simpsAux_length, (signCorrectStep_lengths _ _ _).2,
        simpsAux_length]
      simp [align_to_world, rotate_accelerations, rotAux_length,
        correct_xy_orientation, removeGravity, correct_z_orientation,
        normalize_timestamp, h]

/-- C1: for every well-formed parsed input (aligned time and acceleration
arrays, as the input adapter produces), whenever the pipeline succeeds the
returned position series has exactly as many columns as the returned time
vector has entries. -/
theorem get_positions_times_length_contract (inp : ParsedInput)
    (h : inp.times.length = inp.accelerations.length) :
    resultLengthsMatch (get_positions_times inp) := by
  show resultLengthsMatch
    (match get_stationary_times (pipelinePre inp).realSpeeds with
      | .error err => .error err
      | .ok st => pipelineRest (pipelinePre inp) st)
  split
  · simp [resultLengthsMatch]
  · apply pipelineRest_lengths
    obtain ⟨ht, ha, -, -⟩ := pipelinePre_len inp
    rw [ht, ha, h]

/-- Witness for C1 at a concrete 40-sample stationary recording. -/
theorem get_positions_times_length_contract_witness :
    resultLengthsMatch (get_positions_times sampleInput) :=
  get_positions_times_length_contract sampleInput
    (by decide)

/-- C8: the disturbance reducer returns an output series shorter than its
input by the window size together with a correspondingly shortened time
vector, and in the pipeline (which trims the GNSS positions by half the
window at each end) the trimmed time vector, filtered accelerations,
filtered angular velocities and trimmed GNSS positions all have equal
sample counts on aligned parsed input. -/
theorem disturbance_trim_alignment (times : List ℚ) (vectors : List Vec3)
    (w : Nat) (inp : ParsedInput)
    (h1 : inp.times.length = inp.accelerations.length)
    (h2 : inp.times.length = inp.angular_velocities.length)
    (h3 : inp.times.length = inp.coordinates.length)
    (h4 : inp.times.length = inp.altitudes.length) :
    (reduce_disturbance times vectors w).2.length = vectors.length - w ∧
    (reduce_disturbance times vectors w).1.length = times.length - w ∧
    trimContract inp := by
  obtain ⟨ht, ha, hv, hg⟩ := pipelinePre_len inp
  refine ⟨?_, ?_, ?_, ?_, ?_⟩
  · simp [reduce_disturbance]
  · simp [reduce_disturbance]
    omega
  · rw [ht, ha]
    omega
  · rw [ht, hv]
    omega
  · rw [ht, hg]
    omega

/-- Witness for C8 at the concrete 40-sample recording and window 20. -/
theorem disturbance_trim_alignment_witness :
    (reduce_disturbance sampleTimes (List.replicate 40 vzero) 20).2.length
      = (List.replicate 40 vzero : List Vec3).length - 20 ∧
    (reduce_disturbance sampleTimes (List.replicate 40 vzero) 20).1.length
      = sampleTimes.length - 20 ∧
    trimContract sampleInput :=
  disturbance_trim_alignment sampleTimes (List.replicate 40 vzero) 20
    sampleInput
    (by decide)
    (by decide)
    (by decide)
    (by decide)
